import Mathlib

/-!
Verification development for the SABLEYE isotope-evolution code.

This file gives a shallow embedding, in Lean 4, of the parts of the
repository that the checked claims are about:

* `dataSolver/batemanMatrix.py` — the Bateman transmutation-matrix builder
  (`batemanMatrix.__init__`, `addDecay`, `isotopeChange`,
  `addTransmutations`).  The N×N numpy array `self.BM` is embedded as a
  total function `Nat → Nat → ℝ` (all indices written by the source lie
  below N); dictionaries loaded from JSON become injected lookup
  functions `String → Option DecayRecord`; Python exceptions become
  `Except String` results.

* `src/solver.py` — `fuelSystem` (current vector plus flat numpy history,
  exactly as the source keeps it: `np.append(history, v, axis=0)`
  concatenates the new concentrations onto a 1-D array),
  `reactor.timeSimulate` (matrix exponential propagation, with scipy
  `expm` modelled by the mathematical matrix exponential
  `NormedSpace.exp ℝ`), and `reprocess.repo` (affine transform with
  optional renormalization; note Python float division by zero yields
  non-finite values rather than raising, so the model keeps the
  division on the success path — in Lean real division by zero gives 0,
  and the observable facts stated below do not depend on the value).

Python control-flow quirks are embedded faithfully rather than cleaned
up; in particular `addDecay` keeps the source behaviour in which a
`KeyError` for an absent parent is caught and printed while execution
falls through to the matrix updates using the *previous* iteration's
local variables (or raises `UnboundLocalError` on the first iteration),
and `isotopeChange` keeps the nested-if block in which every metastable
update is unreachable because it is guarded by `deltaM == None`.
-/

/-! ## Bateman matrix builder: data model -/

/-- Decay data for one parent isotope as stored in `decayData.json`:
decay constant, child isotope codes, and parallel branch probabilities. -/
structure DecayRecord where
  decayConst : ℝ
  childNames : List String
  childProbs : List ℝ

/-- The builder matrix `self.BM`, a numpy `N×N` array embedded as a total
function on indices; the source only ever reads or writes indices below
`N = trackedIsotopes.length`. -/
abbrev BMat : Type := Nat → Nat → ℝ

/-- One in-place update `M[i][j] += x` of the numpy array. -/
def addEntry (M : BMat) (i j : Nat) (x : ℝ) : BMat :=
  fun a b => M a b + if a = i ∧ b = j then x else 0

/-- Python `list.index` returning the first index of `s`, `none` when the
element is absent (the source catches the `ValueError` and skips). -/
def idxOf? : List String → String → Option Nat
  | [], _ => Option.none
  | a :: as, s => if a = s then some 0 else (idxOf? as s).map (· + 1)

/-- `batemanMatrix.__init__`: the only check performed by the source is
`trackedIsotopes == None` (the isotope-validity loop is `try: pass`),
so an empty list and a list with duplicates are both accepted; the
matrix starts as `np.zeros([N,N])`. -/
def batemanMatrixInit (trackedIsotopes : Option (List String)) :
    Except String (List String × BMat) :=
  match trackedIsotopes with
  | Option.none => Except.error "Nuclide List cannot be blank"
  | some l => Except.ok (l, fun _ _ => 0)

/-! ## addDecay -/

/-- The inner loop of `addDecay` over `zip(childNames, childProbs)`:
for each child that is a tracked isotope, `BM[childIndex][parentIndex]
+= decayConst * childProb`; an untracked child is printed and skipped. -/
def applyChildren (tracked : List String) (parentIndex : Nat) (decayConst : ℝ) :
    List (String × ℝ) → BMat → BMat
  | [], M => M
  | (childName, childProb) :: rest, M =>
    match idxOf? tracked childName with
    | some childIndex =>
        applyChildren tracked parentIndex decayConst rest
          (addEntry M childIndex parentIndex (decayConst * childProb))
    | Option.none => applyChildren tracked parentIndex decayConst rest M

/-- The body of one `addDecay` loop iteration once the local variables
`decayConst`, `childNames`, `childProbs` hold the record `r`:
`BM[parentIndex][parentIndex] -= decayConst`, then the child loop. -/
def applyParent (tracked : List String) (parentIndex : Nat) (r : DecayRecord)
    (M : BMat) : BMat :=
  applyChildren tracked parentIndex r.decayConst (r.childNames.zip r.childProbs)
    (addEntry M parentIndex parentIndex (-r.decayConst))

/-- The `addDecay` loop over `enumerate(self.trackedIsotopes)`.  The
`stale` argument holds the values of the loop-local variables left over
from the previous iteration: the source catches the `KeyError` for an
absent parent, prints, and falls through to the matrix updates, which
therefore reuse the previous parent's data — or raise
`UnboundLocalError` if no parent has been found yet. -/
def addDecayAux (tracked : List String) (decayData : String → Option DecayRecord) :
    List (Nat × String) → Option DecayRecord → BMat → Except String BMat
  | [], _, M => Except.ok M
  | (parentIndex, parent) :: rest, stale, M =>
    match decayData parent, stale with
    | some r, _ =>
        addDecayAux tracked decayData rest (some r) (applyParent tracked parentIndex r M)
    | Option.none, some r =>
        addDecayAux tracked decayData rest (some r) (applyParent tracked parentIndex r M)
    | Option.none, Option.none =>
        Except.error "UnboundLocalError: local variable decayConst referenced before assignment"

/-- `batemanMatrix.addDecay`, with the parsed `decayData.json` dictionary
injected as a lookup function. -/
def addDecay (tracked : List String) (decayData : String → Option DecayRecord)
    (M : BMat) : Except String BMat :=
  addDecayAux tracked decayData tracked.enum Option.none M

/-! ## isotopeChange -/

/-- Python slicing `s[a:b]` restricted to a prefix: `strTake s n` is
`s[0:n]` (on the character lists underlying these ASCII codes). -/
def strTake (s : String) (n : Nat) : String := String.mk (s.toList.take n)

/-- Python slicing from an offset: `strDrop s n` is `s[n:]`. -/
def strDrop (s : String) (n : Nat) : String := String.mk (s.toList.drop n)

/-- Python `int(s)` on the digit-only slices this code feeds it: the
numeric value when `s` is a non-empty string of decimal digits, `none`
(a raised `ValueError`) otherwise. -/
def strToNat? (s : String) : Option Nat :=
  if s.toList ≠ [] ∧ s.toList.all Char.isDigit then
    some (s.toList.foldl (fun n c => n * 10 + (c.toNat - 48)) 0)
  else
    Option.none

/-- Decimal rendering of a natural number zero-padded on the left to
width `w`, the non-negative case of a Python `f-string` `03d` format. -/
def padNat (w : Nat) (m : Nat) : String :=
  let s := toString m
  if s.length < w then String.mk (List.replicate (w - s.length) '0') ++ s else s

/-- Python `f-string` formatting of an integer with format spec `03d`:
total width 3 including the sign, zero-padded between sign and digits. -/
def pad3 (n : Int) : String :=
  if n < 0 then "-" ++ padNat 2 n.natAbs else padNat 3 n.toNat

/-- `batemanMatrix.isotopeChange`.  Slices follow the source exactly:
`A = int(isoName[0:3]) + deltaA`, `Z = int(isoName[3:7]) + deltaZ`
(four characters parsed!), `M = isoName[7:10]`, and the result is
reassembled as three-wide `A`, three-wide `Z`, and the unchanged `M`
slice.  The metastable-state block is reproduced as written in the
source: all four `M` updates sit under `if deltaM == None:` and are
therefore unreachable, so `M` is never modified.  A slice that `int()`
cannot parse raises `ValueError` in Python, embedded as an error. -/
def isotopeChange (isoName : String) (deltaA deltaZ : Int) (deltaM : Option String) :
    Except String String :=
  match strToNat? (strTake isoName 3), strToNat? (strTake (strDrop isoName 3) 4) with
  | some a0, some z0 =>
    let A : Int := (a0 : Int) + deltaA
    let Z : Int := (z0 : Int) + deltaZ
    let M0 := strTake (strDrop isoName 7) 3
    let M :=
      if deltaM = Option.none then
        let M1 :=
          if deltaM = some "+1" then
            let Ma := if M0 = "0001" then "0010" else M0
            if Ma = "0000" then "0001" else Ma
          else M0
        if deltaM = some "-1" then
          let Mc := if M1 = "0010" then "0001" else M1
          if Mc = "0001" then "0000" else Mc
        else M1
      else M0
    Except.ok (pad3 A ++ pad3 Z ++ M)
  | _, _ => Except.error "ValueError: invalid literal for int with base 10"

/-! ## addTransmutations -/

/-- The `A` column of the hard-coded reaction table: an integer shift or
the string sentinel `FP` used by the fission row. -/
inductive DeltaAVal : Type
  | int (i : Int)
  | FP

/-- One row of the hard-coded `transmutationRxns` table. -/
structure TransRxn where
  i : Nat
  MT : Nat
  reaction : String
  dA : DeltaAVal
  dZ : Option Int
  dM : Option String

/-- The reaction table hard-coded in `addTransmutations`. -/
def transmutationRxns : List TransRxn :=
  [ ⟨1, 4, "(n,n)", DeltaAVal.int 0, some 0, some "+1"⟩,
    ⟨2, 16, "(n,2n)", DeltaAVal.int (-1), some 0, some "-1"⟩,
    ⟨3, 17, "(n,3n)", DeltaAVal.int (-2), some 0, Option.none⟩,
    ⟨4, 18, "(n,f)", DeltaAVal.FP, Option.none, Option.none⟩,
    ⟨5, 22, "(n,na)", DeltaAVal.int (-4), some (-2), Option.none⟩,
    ⟨6, 23, "(n,n3a)", DeltaAVal.int (-12), some (-6), Option.none⟩,
    ⟨7, 24, "(n,2na)", DeltaAVal.int (-5), some (-2), Option.none⟩,
    ⟨8, 25, "(n,3na)", DeltaAVal.int (-6), some (-2), Option.none⟩,
    ⟨9, 28, "(n,np)", DeltaAVal.int (-1), some (-1), Option.none⟩,
    ⟨10, 29, "(n,n2a)", DeltaAVal.int (-8), some (-2), Option.none⟩,
    ⟨11, 32, "(n,nd)", DeltaAVal.int (-2), some (-1), Option.none⟩,
    ⟨12, 33, "(n,nt)", DeltaAVal.int (-3), some (-2), Option.none⟩,
    ⟨13, 34, "(n,nhe3)", DeltaAVal.int (-3), some (-2), Option.none⟩,
    ⟨14, 37, "(n,4n)", DeltaAVal.int (-3), some 0, Option.none⟩,
    ⟨15, 41, "(n,2np)", DeltaAVal.int (-2), some (-1), Option.none⟩,
    ⟨16, 44, "(n,n2p)", DeltaAVal.int (-2), some (-1), Option.none⟩,
    ⟨17, 45, "(n,npa)", DeltaAVal.int (-5), some (-2), Option.none⟩,
    ⟨18, 102, "(n,g)", DeltaAVal.int 1, some 0, some "+1"⟩,
    ⟨19, 103, "(n,p)", DeltaAVal.int (-1), some (-1), Option.none⟩,
    ⟨20, 104, "(n,d)", DeltaAVal.int (-1), some (-1), Option.none⟩,
    ⟨21, 105, "(n,t)", DeltaAVal.int (-2), some (-1), Option.none⟩,
    ⟨22, 106, "(n,he3)", DeltaAVal.int (-2), some (-2), Option.none⟩,
    ⟨23, 107, "(n,a)", DeltaAVal.int (-3), some (-2), Option.none⟩,
    ⟨24, 108, "(n,2a)", DeltaAVal.int (-7), some (-4), Option.none⟩,
    ⟨25, 111, "(n,2p)", DeltaAVal.int (-1), some (-2), Option.none⟩,
    ⟨26, 112, "(n,pa)", DeltaAVal.int (-4), some (-3), Option.none⟩,
    ⟨27, 113, "(n,2a)", DeltaAVal.int (-7), some (-4), Option.none⟩,
    ⟨28, 115, "(n,pd)", DeltaAVal.int (-2), some (-2), Option.none⟩,
    ⟨29, 116, "(n,pt)", DeltaAVal.int (-3), some (-2), Option.none⟩,
    ⟨30, 117, "(n,da)", DeltaAVal.int (-5), some (-3), Option.none⟩ ]

/-- The inner reaction loop of `addTransmutations` for one target
isotope.  The source calls `isotopeChange(targetIso, rxn[A], rxn[Z])`
with no `deltaM` argument; for the fission row the `A` entry is the
string `FP`, so after `int(isoName[0:3])` is evaluated the addition
`+ deltaA` raises `TypeError`, before `deltaZ = None` is even reached.  When the product is tracked the
source executes `self.BM += XS * totalFlux` with `totalFlux = 1000`,
a numpy broadcast that adds the scalar rate to EVERY matrix entry. -/
def addTransRxns (tracked : List String) (getOneGroupXS : String → Nat → ℝ)
    (targetIso : String) : List TransRxn → BMat → Except String BMat
  | [], M => Except.ok M
  | rxn :: rest, M =>
    match rxn.dA with
    | DeltaAVal.FP =>
        match strToNat? (strTake targetIso 3) with
        | Option.none => Except.error "ValueError: invalid literal for int with base 10"
        | some _ => Except.error "TypeError: unsupported operand types for int and str"
    | DeltaAVal.int a =>
      match rxn.dZ with
      | Option.none =>
          Except.error "TypeError: unsupported operand types for int and NoneType"
      | some z =>
        match isotopeChange targetIso a z Option.none with
        | Except.error e => Except.error e
        | Except.ok prodIso =>
          if prodIso ∈ tracked then
            addTransRxns tracked getOneGroupXS targetIso rest
              (fun p q => M p q + getOneGroupXS targetIso rxn.MT * 1000)
          else
            addTransRxns tracked getOneGroupXS targetIso rest M

/-- The outer target loop of `addTransmutations`. -/
def addTransmutationsAux (tracked : List String) (getOneGroupXS : String → Nat → ℝ) :
    List String → BMat → Except String BMat
  | [], M => Except.ok M
  | targetIso :: rest, M =>
    match addTransRxns tracked getOneGroupXS targetIso transmutationRxns M with
    | Except.error e => Except.error e
    | Except.ok M2 => addTransmutationsAux tracked getOneGroupXS rest M2

/-- `batemanMatrix.addTransmutations`, with the
`CrossSectionHomogenizer.get_one_group_xs` provider injected as a
function of the target isotope and MT number (the file path the source
passes is derived deterministically from the target isotope). -/
def addTransmutations (tracked : List String) (getOneGroupXS : String → Nat → ℝ)
    (M : BMat) : Except String BMat :=
  addTransmutationsAux tracked getOneGroupXS tracked M

/-! ## Fuel system (src/solver.py) -/

/-- `fuelSystem`: isotope names, the current concentration vector, the
stored data length, and the history.  The source stores the history as
a flat 1-D numpy array — `__init__` sets `history = concentrations` and
`appendHistory` does `np.append(history, v, axis=0)`, which
concatenates the new concentrations onto the flat array; one logical
state occupies `dataLength` consecutive entries and `exportHistory`
reshapes with `reshape(-1, len(iso))`. -/
structure fuelSystem where
  dataLength : Nat
  iso : List String
  con : List ℝ
  history : List ℝ

/-- `fuelSystem.__init__`: rejects mismatched lengths, then stores the
data and seeds the history with the initial concentrations. -/
def fuelSystemInit (isotopes : List String) (concentrations : List ℝ) :
    Except String fuelSystem :=
  if isotopes.length ≠ concentrations.length then
    Except.error "Isotope and concentration list not equal"
  else
    Except.ok ⟨isotopes.length, isotopes, concentrations, concentrations⟩

/-- `fuelSystem.appendHistory` (the parameter name reproduces the
source's spelling): the length check runs before any mutation, so on
failure neither `con` nor `history` is touched; on success `con` is
replaced and the new concentrations are concatenated onto the flat
history. -/
def appendHistory (fs : fuelSystem) (conentrations : List ℝ) :
    Except String fuelSystem :=
  if fs.dataLength ≠ conentrations.length then
    Except.error "Invalid concentration length added"
  else
    Except.ok { fs with con := conentrations, history := fs.history ++ conentrations }

/-- `reactor.timeSimulate` for a reactor built from an `n × n` Bateman
matrix `BM`: computes `expm(BM * time) @ fuelSys.con` and appends the
result.  scipy `expm` is modelled by the mathematical matrix
exponential; the numpy matrix-vector product requires the concentration
vector to have length `n` (numpy raises a shape error otherwise, before
any state is touched).  Note that no branch of the source inspects
`time` itself. -/
noncomputable def timeSimulate (n : Nat) (BM : Matrix (Fin n) (Fin n) ℝ)
    (fs : fuelSystem) (time : ℝ) : Except String fuelSystem :=
  if fs.con.length = n then
    appendHistory fs
      (List.ofFn fun i =>
        (NormedSpace.exp ℝ (time • BM)).mulVec (fun j => fs.con.getD j 0) i)
  else
    Except.error "ValueError: matmul input operand has dimension mismatch"

/-- `reprocess.__init__` stores the additive vector, the linear
operator, and the renormalization flag. -/
structure reprocess (n : Nat) where
  add : Fin n → ℝ
  mult : Matrix (Fin n) (Fin n) ℝ
  reNorm : Bool

/-- `reprocess.repo`: `N_new = add + np.dot(mult, con)`; when `reNorm`
is set the source executes `N_new /= sum(N_new)` with no zero check
(Python float division by zero produces non-finite entries and a numpy
warning, not an exception — in this real-valued model the division is
total with `x / 0 = 0`), and in every case the result is appended. -/
noncomputable def repo (n : Nat) (rp : reprocess n) (fs : fuelSystem) :
    Except String fuelSystem :=
  if fs.con.length = n then
    let N0 : Fin n → ℝ := fun i =>
      rp.add i + rp.mult.mulVec (fun j => fs.con.getD j 0) i
    let N1 : Fin n → ℝ :=
      if rp.reNorm then fun i => N0 i / (∑ j, N0 j) else N0
    appendHistory fs (List.ofFn N1)
  else
    Except.error "ValueError: shapes not aligned"

/-! ## Helper lemmas -/

/-- Adding an entry to a shifted matrix shifts the updated matrix. -/
theorem addEntry_shift (M N : BMat) (i j : Nat) (x : ℝ) :
    addEntry (fun a b => M a b + N a b) i j x =
      fun a b => M a b + addEntry N i j x a b := by
  funext a b
  simp [addEntry]
  ring

/-- The child loop of `addDecay` is a pure accumulation: its effect on a
shifted matrix is the shift of its effect. -/
theorem applyChildren_shift (tracked : List String) (p : Nat) (c : ℝ)
    (pairs : List (String × ℝ)) :
    ∀ M N : BMat,
      applyChildren tracked p c pairs (fun a b => M a b + N a b) =
        fun a b => M a b + applyChildren tracked p c pairs N a b := by
  induction pairs with
  | nil => intro M N; rfl
  | cons hd tl ih =>
    intro M N
    obtain ⟨childName, childProb⟩ := hd
    simp only [applyChildren]
    cases h : idxOf? tracked childName with
    | none => exact ih M N
    | some childIndex =>
      dsimp only
      rw [addEntry_shift]
      exact ih M (addEntry N childIndex p (c * childProb))

/-- One `addDecay` parent iteration is a pure accumulation. -/
theorem applyParent_shift (tracked : List String) (p : Nat) (r : DecayRecord)
    (M N : BMat) :
    applyParent tracked p r (fun a b => M a b + N a b) =
      fun a b => M a b + applyParent tracked p r N a b := by
  unfold applyParent
  rw [addEntry_shift, applyChildren_shift]

/-- One `addDecay` parent iteration starting from `M` equals `M` plus
the iteration's effect on the zero matrix. -/
theorem applyParent_from_zero (tracked : List String) (p : Nat) (r : DecayRecord)
    (M : BMat) :
    applyParent tracked p r M =
      fun a b => M a b + applyParent tracked p r (fun _ _ => 0) a b := by
  have := applyParent_shift tracked p r M (fun _ _ => 0)
  calc applyParent tracked p r M
      = applyParent tracked p r (fun a b => M a b + (fun _ _ => (0:ℝ)) a b) := by
        refine congrArg (applyParent tracked p r) ?_; funext a b; simp
    _ = fun a b => M a b + applyParent tracked p r (fun _ _ => 0) a b := this

/-- The whole `addDecay` loop is a pure accumulation into the matrix it
is given: whether it succeeds, and which decay data each iteration
applies (including the stale reuse after a missing parent), depend only
on the tracked list and the rate table, never on the matrix contents. -/
theorem addDecayAux_shift (tracked : List String)
    (decayData : String → Option DecayRecord) (l : List (Nat × String)) :
    ∀ (stale : Option DecayRecord) (M : BMat),
      addDecayAux tracked decayData l stale M =
        Except.map (fun D => fun a b => M a b + D a b)
          (addDecayAux tracked decayData l stale (fun _ _ => 0)) := by
  induction l with
  | nil =>
    intro stale M
    simp only [addDecayAux, Except.map]
    refine congrArg Except.ok ?_
    funext a b
    simp
  | cons hd tl ih =>
    intro stale M
    obtain ⟨parentIndex, parent⟩ := hd
    simp only [addDecayAux]
    cases hd : decayData parent with
    | some r =>
      dsimp only
      rw [ih (some r) (applyParent tracked parentIndex r M),
          ih (some r) (applyParent tracked parentIndex r (fun _ _ => 0))]
      cases hrest : addDecayAux tracked decayData tl (some r) (fun _ _ => 0) with
      | error e => rfl
      | ok D =>
        simp only [Except.map]
        refine congrArg Except.ok ?_
        funext a b
        rw [applyParent_from_zero]
        ring
    | none =>
      cases stale with
      | none => rfl
      | some r =>
        dsimp only
        rw [ih (some r) (applyParent tracked parentIndex r M),
            ih (some r) (applyParent tracked parentIndex r (fun _ _ => 0))]
        cases hrest : addDecayAux tracked decayData tl (some r) (fun _ _ => 0) with
        | error e => rfl
        | ok D =>
          simp only [Except.map]
          refine congrArg Except.ok ?_
          funext a b
          rw [applyParent_from_zero]
          ring

/-- `addDecay` on any starting matrix is the starting matrix plus the
run of `addDecay` on the zero matrix. -/
theorem addDecay_shift (tracked : List String)
    (decayData : String → Option DecayRecord) (M : BMat) :
    addDecay tracked decayData M =
      Except.map (fun D => fun a b => M a b + D a b)
        (addDecay tracked decayData (fun _ _ => 0)) :=
  addDecayAux_shift tracked decayData tracked.enum Option.none M

/-- A list of reals recovered entrywise through `getD` is itself. -/
theorem ofFn_getD_eq_self (l : List ℝ) :
    List.ofFn (fun i : Fin l.length => l.getD i 0) = l := by
  apply List.ext_getElem
  · simp
  · intro i h1 h2
    simp [List.getD_eq_getElem]

/-! ## Claim theorems -/

/-- Claim C1 (code bug).  The claim says `addDecay` touches only the
entries derived from tracked parents present in the rate table and
leaves all other entries unchanged.  The source violates this: the
`except KeyError` handler only prints and execution falls through, so a
parent absent from the table has the PREVIOUS parent's decay data
applied to its column.  Here, with tracked set
`["0010010000", "0020010000"]` and a table containing only the first
parent (decay constant 2, no children), the diagonal entry of the
absent second parent ends up `-2` instead of the `0` the claim
requires. -/
theorem addDecay_stale_reuse_on_absent_parent :
    ∃ D : BMat,
      addDecay ["0010010000", "0020010000"]
          (fun s => if s = "0010010000" then some ⟨2, [], []⟩ else Option.none)
          (fun _ _ => 0) = Except.ok D ∧
      D 1 1 = -2 ∧ D 1 1 ≠ 0 := by
  refine ⟨_, rfl, ?_, ?_⟩ <;>
    simp [applyParent, applyChildren, addEntry]

/-- Claim C2 (code bug).  The claim says each transmutation reaction
with a tracked product adds its rate at (product row, target column)
and subtracts it at (target row, target column) only.  The source
instead executes the numpy broadcast `self.BM += XS * totalFlux`
(adding the scalar rate to every entry, with no diagonal loss term),
and it never gets past the fission row of its hard-coded reaction
table: that row has `A = "FP"` (a string), so
`int(isoName[0:3]) + deltaA` raises `TypeError` for the very first
target isotope, as evaluated here on a one-isotope tracked set. -/
theorem addTransmutations_crashes_on_fission_row :
    addTransmutations ["0010010000"] (fun _ _ => 0) (fun _ _ => 0) =
      Except.error "TypeError: unsupported operand types for int and str" := rfl

/-- Claim C3 (code bug).  The claim (and the constructor docstring) says
construction fails for an empty or duplicate-laden tracked set.  The
source only checks `trackedIsotopes == None`: the empty list and a list
with duplicate codes are both accepted, and only the missing argument
is rejected. -/
theorem batemanMatrixInit_accepts_empty_and_duplicates :
    batemanMatrixInit (some []) = Except.ok ([], fun _ _ => 0) ∧
    batemanMatrixInit (some ["A", "A"]) = Except.ok (["A", "A"], fun _ _ => 0) ∧
    batemanMatrixInit Option.none = Except.error "Nuclide List cannot be blank" :=
  ⟨rfl, rfl, rfl⟩

/-- Claim C4 (code bug).  The claim says a tracked parent absent from
the rate table does not fail `addDecay`, leaves that parent's column
unchanged, and records the gap observably.  In the source the gap is
only printed, and when the very first tracked parent is absent the
fall-through after the printed `KeyError` reads the never-assigned
locals, raising `UnboundLocalError` — the whole call fails, evaluated
here on a one-isotope tracked set with an empty table.  (When a later
parent is absent the call survives but applies the previous parent's
data to the absent parent's column, as proved for claim C1.) -/
theorem addDecay_fails_when_first_parent_absent :
    addDecay ["0010010000"] (fun _ => Option.none) (fun _ _ => 0) =
      Except.error
        "UnboundLocalError: local variable decayConst referenced before assignment" := rfl

/-- Claim C5 (code bug).  The claim says the shift with `deltaM = "+1"`
moves a ground-state code to the first excited code and that the result
keeps the 10-character width.  In the source every metastable update is
nested under `if deltaM == None:` and is unreachable, so `M` is never
modified; moreover `Z` is parsed from four characters (`isoName[3:7]`)
but re-formatted with `03d`, so the ground-state code 0010010000 maps
to the 9-character string 001010000 with its metastable field
unchanged. -/
theorem isotopeChange_ignores_deltaM_and_shrinks_code :
    isotopeChange "0010010000" 0 0 (some "+1") = Except.ok "001010000" ∧
    ("001010000" : String).length = 9 ∧
    ("0010010000" : String).length = 10 :=
  ⟨rfl, rfl, rfl⟩

/-- Claim C6 (confirmed).  Evolving for duration 0 is exactly the
identity: the propagator `expm(BM * 0)` is the identity matrix and the
vector handed to `appendHistory` is the current concentration vector
itself. -/
theorem timeSimulate_zero_is_identity (n : Nat) (BM : Matrix (Fin n) (Fin n) ℝ)
    (fs : fuelSystem) (h : fs.con.length = n) :
    NormedSpace.exp ℝ ((0:ℝ) • BM) = 1 ∧
      timeSimulate n BM fs 0 = appendHistory fs fs.con := by
  have he : NormedSpace.exp ℝ ((0:ℝ) • BM) = 1 := by
    rw [zero_smul]
    exact NormedSpace.exp_zero
  refine ⟨he, ?_⟩
  unfold timeSimulate
  rw [if_pos h, he]
  congr 1
  subst h
  simp only [Matrix.one_mulVec]
  exact ofFn_getD_eq_self fs.con

/-- Witness for claim C6 at a concrete one-isotope system. -/
theorem timeSimulate_zero_is_identity_witness :
    NormedSpace.exp ℝ ((0:ℝ) • (1 : Matrix (Fin 1) (Fin 1) ℝ)) = 1 ∧
      timeSimulate 1 1 ⟨1, ["A"], [5], [5]⟩ 0 =
        appendHistory ⟨1, ["A"], [5], [5]⟩ [5] :=
  timeSimulate_zero_is_identity 1 1 ⟨1, ["A"], [5], [5]⟩ rfl

/-- Claim C7, counterexample.  The claim says a zero post-transform sum
makes the renormalizing reprocessing call fail with `DegenerateState`
and append nothing.  The source has no such check: `N_new /= sum(N_new)`
divides by zero (in Python this produces non-finite floats and a numpy
warning, not an exception; in this real-valued model the quotient is 0)
and the result is still appended.  With `add = [0]`, `mult = [[0]]`,
`renormalize = true` and current vector `[1]`, the post-transform
vector is `[0]` with sum 0, yet the call succeeds and appends. -/
theorem repo_zero_sum_still_appends :
    repo 1 ⟨fun _ => 0, 0, true⟩ ⟨1, ["A"], [1], [1]⟩ =
      Except.ok ⟨1, ["A"], [0], [1, 0]⟩ := by
  unfold repo
  norm_num
  unfold appendHistory
  norm_num

/-- Claim C7 (corrected).  The amended claim: with `renormalize = true`
and a post-transform vector of non-zero sum, the appended vector sums
to exactly 1; a zero post-transform sum does NOT fail — the source
divides by zero anyway and still appends (see the counterexample). -/
theorem repo_renorm_sums_to_one (n : Nat) (rp : reprocess n) (fs : fuelSystem)
    (h1 : fs.con.length = n) (h2 : fs.dataLength = n) (hre : rp.reNorm = true)
    (hs : (∑ j, (rp.add j + rp.mult.mulVec (fun k => fs.con.getD k 0) j)) ≠ 0) :
    ∃ fs2 : fuelSystem,
      repo n rp fs = Except.ok fs2 ∧
      fs2.con.sum = 1 ∧
      fs2.history = fs.history ++ fs2.con := by
  unfold repo
  rw [if_pos h1]
  simp only [hre, if_true]
  unfold appendHistory
  rw [if_neg (by simp [List.length_ofFn, h2])]
  refine ⟨_, rfl, ?_, rfl⟩
  rw [List.sum_ofFn, ← Finset.sum_div]
  exact div_self hs

/-- Witness for claim C7: a concrete renormalizing scheme with
post-transform sum 2. -/
theorem repo_renorm_sums_to_one_witness :
    ∃ fs2 : fuelSystem,
      repo 1 ⟨fun _ => 2, 0, true⟩ ⟨1, ["A"], [1], [1]⟩ = Except.ok fs2 ∧
      fs2.con.sum = 1 ∧
      fs2.history = [1] ++ fs2.con :=
  repo_renorm_sums_to_one 1 ⟨fun _ => 2, 0, true⟩ ⟨1, ["A"], [1], [1]⟩ rfl rfl rfl
    (by simp [Matrix.zero_mulVec])

/-- Claim C8 (confirmed).  `appendHistory` validates the length first,
so a wrong-length vector fails (the `ValueError` the spec taxonomy
calls `LengthMismatch`) with no state change — in the source the
`raise` precedes every assignment — and a correct-length vector
replaces `con` and concatenates exactly the new concentrations (one
logical state of `dataLength` entries in the flat numpy layout, i.e.
one row after `exportHistory` reshaping) onto the end of the history,
never overwriting or truncating. -/
theorem appendHistory_length_contract (fs : fuelSystem) (v : List ℝ) :
    (v.length ≠ fs.dataLength →
      appendHistory fs v = Except.error "Invalid concentration length added") ∧
    (v.length = fs.dataLength →
      appendHistory fs v =
        Except.ok { dataLength := fs.dataLength, iso := fs.iso, con := v,
                    history := fs.history ++ v }) := by
  constructor
  · intro h
    unfold appendHistory
    rw [if_pos (Ne.symm h)]
  · intro h
    unfold appendHistory
    rw [if_neg (by rw [h]; exact fun hc => hc rfl)]

/-- Witness for claim C8: a length-1 system rejects a length-2 vector
and accepts a length-1 vector. -/
theorem appendHistory_length_contract_witness :
    appendHistory ⟨1, ["A"], [5], [5]⟩ [1, 2] =
      Except.error "Invalid concentration length added" ∧
    appendHistory ⟨1, ["A"], [5], [5]⟩ [7] =
      Except.ok ⟨1, ["A"], [7], [5, 7]⟩ :=
  ⟨(appendHistory_length_contract ⟨1, ["A"], [5], [5]⟩ [1, 2]).1 (by decide),
   (appendHistory_length_contract ⟨1, ["A"], [5], [5]⟩ [7]).2 rfl⟩

/-- Claim C9 (confirmed).  `addDecay` is unguarded accumulation, so
applied twice with the same rate table to a freshly constructed (zero)
matrix it doubles every entry produced by one application; the
implemented policy is double-counting, not a guarded no-op. -/
theorem addDecay_twice_doubles (tracked : List String)
    (decayData : String → Option DecayRecord) (B1 B2 : BMat)
    (h1 : addDecay tracked decayData (fun _ _ => 0) = Except.ok B1)
    (h2 : addDecay tracked decayData B1 = Except.ok B2) :
    B2 = (2:ℝ) • B1 := by
  have hs := addDecay_shift tracked decayData B1
  rw [h1, h2] at hs
  simp only [Except.map] at hs
  have hB2 : B2 = fun a b => B1 a b + B1 a b := Except.ok.inj hs
  funext a b
  rw [hB2]
  show B1 a b + B1 a b = (2:ℝ) • B1 a b
  rw [smul_eq_mul]
  ring

/-- Witness for claim C9: one tracked isotope with decay constant 3;
after one call the diagonal entry is -3, after two calls -6. -/
theorem addDecay_twice_doubles_witness :
    ∃ B1 B2 : BMat,
      addDecay ["A"] (fun _ => some ⟨3, [], []⟩) (fun _ _ => 0) = Except.ok B1 ∧
      addDecay ["A"] (fun _ => some ⟨3, [], []⟩) B1 = Except.ok B2 ∧
      B2 = (2:ℝ) • B1 ∧ B1 0 0 = -3 :=
  ⟨_, _, rfl, rfl,
    addDecay_twice_doubles ["A"] (fun _ => some ⟨3, [], []⟩) _ _ rfl rfl,
    by simp [applyParent, applyChildren, addEntry]⟩

/-- Claim C10 (confirmed).  `timeSimulate` places no restriction on the
sign of the duration: for EVERY real `time`, negative included, it
takes the same path, computes `expm(BM * time) @ con`, and appends the
result; no error branch inspects `time`. -/
theorem timeSimulate_accepts_any_duration (n : Nat)
    (BM : Matrix (Fin n) (Fin n) ℝ) (fs : fuelSystem) (t : ℝ)
    (h1 : fs.con.length = n) (h2 : fs.dataLength = n) :
    timeSimulate n BM fs t =
      Except.ok
        { dataLength := fs.dataLength, iso := fs.iso,
          con := List.ofFn fun i =>
            (NormedSpace.exp ℝ (t • BM)).mulVec (fun j => fs.con.getD j 0) i,
          history := fs.history ++ List.ofFn fun i =>
            (NormedSpace.exp ℝ (t • BM)).mulVec (fun j => fs.con.getD j 0) i } := by
  unfold timeSimulate
  rw [if_pos h1]
  unfold appendHistory
  rw [if_neg (by simp [List.length_ofFn, h2])]

/-- Witness for claim C10 at the negative duration -1: the call
succeeds and appends, with no sign check. -/
theorem timeSimulate_accepts_any_duration_witness :
    timeSimulate 1 1 ⟨1, ["A"], [5], [5]⟩ (-1) =
      Except.ok
        { dataLength := 1, iso := ["A"],
          con := List.ofFn fun i =>
            (NormedSpace.exp ℝ ((-1:ℝ) • (1 : Matrix (Fin 1) (Fin 1) ℝ))).mulVec
              (fun j => ([5] : List ℝ).getD j 0) i,
          history := [5] ++ List.ofFn fun i =>
            (NormedSpace.exp ℝ ((-1:ℝ) • (1 : Matrix (Fin 1) (Fin 1) ℝ))).mulVec
              (fun j => ([5] : List ℝ).getD j 0) i } :=
  timeSimulate_accepts_any_duration 1 1 ⟨1, ["A"], [5], [5]⟩ (-1) rfl rfl
